import Mathlib

/-!
Verification development for the agentgist repository: a shallow embedding in
Lean 4 of the data model (`src/agentgist/data.py`), the agent step functions
(`src/agentgist/agents/*.py`), the configuration and model factory
(`src/agentgist/config.py`, `src/agentgist/models.py`,
`src/agentgist/groq_strategies.py`) and the workflow
(`src/agentgist/workflow.py`), together with theorems settling the claims
about that code.

Conventions of the embedding:
- Python machine floats that appear in the data model (`upvote_ratio`,
  `temperature`) are modelled as `Rat`: Python floats are dyadic rationals
  and both `json.dumps`/`json.loads` and pydantic round-trip them exactly
  (repr-based serialization), so rationals preserve exactly the equalities
  the claims are about.
- `datetime` values are modelled as an integer (epoch microseconds);
  pydantic serializes an aware datetime to an ISO-8601 string and parses it
  back to an equal value, an injective encoding modelled by the integer.
- pydantic validation, which runs on every `Model(**kwargs)` construction,
  is modelled by explicit `validate...` functions returning `Except`; a
  `.error` value models an uncaught `ValidationError` exception.
- LLM calls, the embedding model and `json.loads` are external black boxes;
  they enter as function parameters (oracles) of the step embeddings.
-/

namespace Agentgist

/-! ## Domain model (src/agentgist/data.py) -/

/-- The 8 admissible values of `PostAnalysis.sentiment`
(the `Literal[...]` in `data.py`). -/
def allowedSentiments : List String :=
  ["happiness", "anger", "sadness", "fear", "surprise", "disgust", "trust", "anticipation"]

/-- `PostAnalysis` record (`data.py`).  `sentiment` is a plain string here;
the `Literal` constraint of the pydantic model is enforced by
`validateAnalysisRaw` below, which models pydantic construction. -/
structure PostAnalysis where
  summary : String
  key_points : List String
  topics : List String
  controversies : List String
  sentiment : String
  deriving Repr, DecidableEq

/-- Recursive `Comment` record (`data.py`): text, author, integer score,
list of replies. -/
inductive Comment where
  | mk (text : String) (author : String) (score : Int) (replies : List Comment)
  deriving Repr

def Comment.text : Comment → String
  | .mk t _ _ _ => t

def Comment.author : Comment → String
  | .mk _ a _ _ => a

def Comment.score : Comment → Int
  | .mk _ _ s _ => s

def Comment.replies : Comment → List Comment
  | .mk _ _ _ r => r

/-- `Post` record (`data.py`).  `upvote_ratio` is named `upvoteFraction`
and modelled as `Rat`; `created_at` is epoch microseconds (see the module
comment). -/
structure Post where
  permalink : String
  title : String
  text : String
  author : String
  category : Option String
  score : Int
  upvoteFraction : Rat
  n_comments : Int
  url_domain : String
  created_at : Int
  comments : List Comment
  analysis : Option PostAnalysis
  deriving Repr

/-- `Report` record (`data.py`): `references` is `Optional[List[Post]]`
with default `[]`, so its model is `Option (List Post)`. -/
structure Report where
  title : String
  takeaways : List String
  summary : String
  references : Option (List Post)
  deriving Repr

/-- A post with its `analysis` field cleared: two posts with equal
`stripAnalysis` agree on every field except `analysis`. -/
def Post.stripAnalysis (p : Post) : Post :=
  { p with analysis := none }

/-! ## pydantic validation of PostAnalysis

`PostAnalysis(**json_data)` validates: `summary` and `sentiment` are
required, the three list fields default to `[]`, and `sentiment` must be
one of the 8 literals.  `RawAnalysis` is the bag of keyword arguments the
constructor receives. -/

/-- Keyword arguments passed to `PostAnalysis(...)`; `none` models an
absent key. -/
structure RawAnalysis where
  summary : Option String
  key_points : Option (List String)
  topics : Option (List String)
  controversies : Option (List String)
  sentiment : Option String
  deriving Repr

/-- pydantic construction/validation of `PostAnalysis`: required fields
must be present and `sentiment` must be one of the 8 enumerated values;
`.error` models a raised `ValidationError`. -/
def validateAnalysisRaw (r : RawAnalysis) : Except String PostAnalysis :=
  match r.summary with
  | none => .error "field required: summary"
  | some summ =>
    match r.sentiment with
    | none => .error "field required: sentiment"
    | some sent =>
      if sent ∈ allowedSentiments then
        .ok { summary := summ
              key_points := r.key_points.getD []
              topics := r.topics.getD []
              controversies := r.controversies.getD []
              sentiment := sent }
      else
        .error ("unexpected value for sentiment: " ++ sent)

/-! ## analyze step (src/agentgist/agents/post_analyzer.py) -/

/-- `sub in s` of Python: the separator occurs in the string exactly when
`splitOn` returns more than one piece. -/
def containsSubstr (s sub : String) : Bool :=
  (s.splitOn sub).length > 1

/-- The code-fence stripping of `analyze_post`/`write_report`:
`response_content.split("```json")[1].split("```")[0].strip()` when a
```json fence is present, the plain-fence variant otherwise, else the raw
content. -/
def stripCodeFence (response_content : String) : String :=
  if containsSubstr response_content "```json" then
    ((((response_content.splitOn "```json").getD 1 "").splitOn "```").getD 0 "").trim
  else if containsSubstr response_content "```" then
    ((((response_content.splitOn "```").getD 1 "").splitOn "```").getD 0 "").trim
  else
    response_content

/-- The fallback keyword arguments that `analyze_post` passes to
`PostAnalysis(...)` in its `except` branch, for a caught exception text `e`
and the raw LLM response `response_content`.  Note `sentiment="neutral"`. -/
def analyzeFallbackRaw (e : String) (response_content : String) : RawAnalysis :=
  { summary := some ("Error parsing response: " ++ e ++ ". Original response: "
      ++ (response_content.take 100) ++ "...")
    key_points := some ["Analysis failed", "JSON parsing error", "Check logs"]
    topics := some ["error"]
    controversies := some ["none"]
    sentiment := some "neutral" }

/-- The parsing tail of `analyze_post` (`post_analyzer.py` lines 106-129),
given the LLM's raw response text.  `parseJson` is the `json.loads` black
box: `.error` is a `json.JSONDecodeError` (or a non-dict result).  The
`try` block strips fences, parses, and constructs `PostAnalysis`; any
exception enters the `except` branch, which constructs the fallback
`PostAnalysis` — itself subject to pydantic validation, whose failure
is an uncaught exception (`.error` result of the whole step). -/
def analyzePostParse (parseJson : String → Except String RawAnalysis)
    (response_content : String) : Except String PostAnalysis :=
  let json_str := stripCodeFence response_content
  let attempt : Except String PostAnalysis :=
    match parseJson json_str with
    | .error e => .error e
    | .ok raw => validateAnalysisRaw raw
  match attempt with
  | .ok pa => .ok pa
  | .error e => validateAnalysisRaw (analyzeFallbackRaw e response_content)

/-! ## write_report step (src/agentgist/agents/report_writer.py) -/

/-- The fallback `Report` built in `write_report`'s `except` branch.
`Report` has no `Literal`-constrained field and the fallback supplies every
required field, so this pydantic construction always succeeds;
`references` takes its default `[]`. -/
def reportFallback (e : String) (response_content : String) : Report :=
  { title := "Error Generating Report: " ++ (e.take 50) ++ "..."
    takeaways := ["Report generation failed", "Try a different query", "Check logs for details"]
    summary := "There was an error parsing the model response. Original content: "
      ++ (response_content.take 100) ++ "..."
    references := some [] }

/-- The parsing tail of `write_report` (`report_writer.py` lines 86-110).
`parseReport` is the black box `json.loads` + `Report(**json_data)`
combined (its `.error` is any exception the `try` block catches); on
failure the fallback `Report` is returned — this step is total. -/
def writeReportParse (parseReport : String → Except String Report)
    (response_content : String) : Report :=
  match parseReport (stripCodeFence response_content) with
  | .ok r => r
  | .error e => reportFallback e response_content

/-! ## filter step (src/agentgist/agents/post_filter.py, src/agentgist/tools.py) -/

/-- LangChain `Document`: page content plus the `permalink` metadata set by
`_create_documents_from_posts`. -/
structure Document where
  page_content : String
  permalink : String
  deriving Repr, DecidableEq

/-- `_create_comment_text` of `post_filter.py`: author-prefixed comment
text, with a Replies block when the comment has replies. -/
def createFilterCommentText (c : Comment) : String :=
  match c with
  | .mk text author _ replies =>
    match replies with
    | [] => author ++ ": " ++ text
    | r :: rs =>
      let replies_text := String.intercalate "\n"
        ((r :: rs).attach.map (fun x => createFilterCommentText x.1))
      "\n" ++ author ++ ": " ++ text ++ "\nReplies:\n" ++ replies_text ++ "\n"
termination_by sizeOf c
decreasing_by
  have h1 := List.sizeOf_lt_of_mem x.2
  simp only [Comment.mk.sizeOf_spec]
  omega

/-- `POST_TEMPLATE.format(...)` of `post_filter.py`. -/
def createFilterPostText (p : Post) : String :=
  "\nTitle: " ++ p.title ++
  "\nAuthor: " ++ p.author ++
  "\nScore: " ++ toString p.score ++
  "\nCategory: " ++ (p.category.getD "None") ++
  "\nContent: " ++ p.text ++
  "\nComments:\n" ++
  String.intercalate "\n" (p.comments.map createFilterCommentText) ++ "\n"

/-- `_create_documents_from_posts`. -/
def createDocumentsFromPosts (posts : List Post) : List Document :=
  posts.map (fun post => { page_content := createFilterPostText post
                           permalink := post.permalink })

/-- The permalink set gathered by `filter_posts` from the documents the
`search_documents` tool returned.  `retrieve` is the black-box
vector-store retriever of `tools.py` (embedding similarity search with
`k = Config.Preprocessing.FILTER_POST_COUNT`). -/
def foundPermalinks (retrieve : String → List Document → List Document)
    (query : String) (posts : List Post) : List String :=
  (retrieve query (createDocumentsFromPosts posts)).map Document.permalink

/-- The membership test `post.permalink in permalinks` of `filter_posts`. -/
def isSelected (retrieve : String → List Document → List Document)
    (query : String) (posts : List Post) (post : Post) : Bool :=
  post.permalink ∈ foundPermalinks retrieve query posts

/-- `filter_posts` (`post_filter.py` lines 90-100): keep exactly the input
posts whose permalink is among the retrieved documents' permalinks,
preserving input order. -/
def filter_posts (retrieve : String → List Document → List Document)
    (query : String) (posts : List Post) : List Post :=
  posts.filter (isSelected retrieve query posts)

/-! ## request_filter_query step (src/agentgist/agents/filter_query.py) -/

/-- The interrupt payload of `request_filter_query`: exactly the one-key
dict holding the fetched posts. -/
structure InterruptPayload where
  posts : List Post

/-- Outcome of one execution of an interruptible step body.  `interrupted`
models the `interrupt(...)` call raising (first execution, no resume value
recorded); `err` models an uncaught exception such as `KeyError`. -/
inductive StepOutcome (α : Type) where
  | interrupted (payload : InterruptPayload)
  | ok (a : α)
  | err (e : String)

/-- `request_filter_query` (`filter_query.py`): `interrupt({"posts": posts})`
raises on the first execution; on re-execution after `Command(resume=v)`
it returns `v`, and the step returns `v["filter_query"]` (a `KeyError` if
the key is absent).  `resume` is the recorded resume value, a string-keyed
dict modelled as an association list. -/
def request_filter_query (posts : List Post)
    (resume : Option (List (String × String))) : StepOutcome String :=
  match resume with
  | none => .interrupted { posts := posts }
  | some feedback =>
    match feedback.lookup "filter_query" with
    | some q => .ok q
    | none => .err "KeyError: filter_query"

/-! ## configuration and model factory
(src/agentgist/config.py, src/agentgist/models.py, src/agentgist/groq_strategies.py) -/

inductive ModelProvider where
  | ollama
  | groq
  deriving Repr, DecidableEq

structure ModelConfig where
  name : String
  temperature : Rat
  provider : ModelProvider
  deriving Repr, DecidableEq

def QWEN : ModelConfig := { name := "qwen2.5", temperature := 0, provider := .ollama }

def DEEPSEEK_R1 : ModelConfig :=
  { name := "deepseek-r1:14b", temperature := 0, provider := .ollama }

def LLAMA_3_3 : ModelConfig :=
  { name := "llama-3.3-70b-versatile", temperature := 0, provider := .groq }

def Config.Model.DEFAULT : ModelConfig := QWEN

def Config.Model.REPORT_WRITER : ModelConfig := DEEPSEEK_R1

def Config.Preprocessing.FILTER_POST_COUNT : Nat := 3

inductive TaskComplexity where
  | low
  | medium
  | high
  deriving Repr, DecidableEq

/-- Keyword lists of `DynamicComplexityRouter.complexity_keywords`. -/
def complexityKeywords (c : TaskComplexity) : List String :=
  match c with
  | .high => ["report", "analyze", "synthesize", "evaluate", "compare", "critique",
      "recommend", "develop", "create", "design", "summarize", "comprehensive",
      "detailed", "nuanced"]
  | .medium => ["explain", "describe", "outline", "list", "identify", "find",
      "filter", "search", "calculate", "process"]
  | .low => ["check", "verify", "confirm", "is", "simple", "basic", "quick",
      "brief", "yes/no"]

/-- `DynamicComplexityRouter.assess_complexity`: count keyword occurrences
per level on the lowercased query; high wins over medium wins over low,
ties preferring the lower complexity. -/
def assessComplexity (query : String) : TaskComplexity :=
  let q := query.toLower
  let scoreOf := fun (c : TaskComplexity) =>
    ((complexityKeywords c).filter (fun kw => containsSubstr q kw)).length
  if scoreOf .high > scoreOf .medium then .high
  else if scoreOf .medium > scoreOf .low then .medium
  else .low

/-- `DynamicComplexityRouter.get_model_for_task`. -/
def getModelForTask (query : String) : ModelConfig :=
  if assessComplexity query = .high then Config.Model.REPORT_WRITER
  else Config.Model.DEFAULT

/-- The `EnhancedGroqChat` instance `create_optimized_chat` builds (its
constructor fields; the wrapped `ChatGroq` network client is external). -/
structure EnhancedGroqChat where
  model : String
  temperature : Rat
  optimize_tokens : Bool
  deriving Repr, DecidableEq

/-- `create_optimized_chat` (`groq_strategies.py`): when `query` is truthy
(present and nonempty) the model config is rerouted by complexity, then an
`EnhancedGroqChat` is constructed. -/
def createOptimizedChat (model_config : ModelConfig) (query : Option String)
    (optTokens : Bool) : EnhancedGroqChat :=
  let mc := match query with
    | some q => if q ≠ "" then getModelForTask q else model_config
    | none => model_config
  { model := mc.name, temperature := mc.temperature, optimize_tokens := optTokens }

/-- `create_llm` (`models.py` lines 16-29): returns an optimized Groq chat
model when the provider is GROQ; otherwise the function body ends without
a `return` statement, i.e. it returns `None`. -/
def create_llm (model_config : ModelConfig) (query : Option String) :
    Option EnhancedGroqChat :=
  if model_config.provider = ModelProvider.groq then
    some (createOptimizedChat model_config query true)
  else
    none

/-! ## fetch step: comment-tree extraction (src/agentgist/agents/post_fetcher.py)

The Reddit API JSON that `_extract_comments` walks is modelled by `RNode`:
`arr` is a JSON list, `obj` a dict with `data.children`, `objEmpty` a dict
without them, `nonDict` any other value.  A child entry carries its `kind`
tag, `body`, `author`, `score` and its `replies` value (`none` when absent
or falsy, e.g. the empty string the API uses for leaf comments). -/

mutual
inductive RNode where
  | arr (items : List RNode)
  | obj (children : List RChild)
  | objEmpty
  | nonDict

inductive RChild where
  | mk (kind : String) (body : String) (author : String) (score : Int)
      (replies : Option RNode)
end

def RChild.kind : RChild → String
  | .mk k _ _ _ _ => k

def RChild.score : RChild → Int
  | .mk _ _ _ s _ => s

/-- `isinstance(v, dict)` on a truthy replies value. -/
def RNode.isDict : RNode → Bool
  | .obj _ => true
  | .objEmpty => true
  | _ => false

mutual
/-- `_extract_comments(data, max_depth, current_depth, min_score)`
(`post_fetcher.py` lines 56-95).  Note, exactly as in the source, that
both recursive calls — on list items and on a comment's replies — pass
only `max_depth` and the depth, so `min_score` reverts to its default `2`
below the top level. -/
def extractComments (data : RNode) (max_depth : Int) (current_depth : Nat)
    (min_score : Int) : List Comment :=
  match data with
  | .arr items => extractCommentsList items max_depth current_depth
  | .obj children => extractChildren children max_depth current_depth min_score
  | .objEmpty => []
  | .nonDict => []

/-- The `isinstance(data, list)` branch: extend with the extraction of each
item, `min_score` left at its default `2`. -/
def extractCommentsList (items : List RNode) (max_depth : Int)
    (current_depth : Nat) : List Comment :=
  match items with
  | [] => []
  | item :: rest =>
    extractComments item max_depth current_depth 2
      ++ extractCommentsList rest max_depth current_depth

/-- The loop over `data["data"]["children"]`: skip non-`t1` children, skip
children scoring below `min_score` (with their whole `replies` subtree),
recurse into a dict-valued `replies` when the depth allows (`min_score`
again at its default `2`), and append the comment. -/
def extractChildren (children : List RChild) (max_depth : Int)
    (current_depth : Nat) (min_score : Int) : List Comment :=
  match children with
  | [] => []
  | .mk kind body author score replies :: rest =>
    if kind ≠ "t1" then extractChildren rest max_depth current_depth min_score
    else if score < min_score then extractChildren rest max_depth current_depth min_score
    else
      let comment_replies :=
        match replies with
        | some reps =>
          if reps.isDict ∧ (max_depth = -1 ∨ (current_depth : Int) < max_depth) then
            extractComments reps max_depth (current_depth + 1) 2
          else []
        | none => []
      Comment.mk body author score comment_replies
        :: extractChildren rest max_depth current_depth min_score
end

mutual
/-- `commentMinOK min c`: `c` and, recursively, every comment in its reply
tree scores at least `min`. -/
def commentMinOK (min : Int) (c : Comment) : Bool :=
  match c with
  | .mk _ _ score replies => min ≤ score && commentListMinOK min replies

/-- All comments of the list satisfy `commentMinOK min`. -/
def commentListMinOK (min : Int) (cs : List Comment) : Bool :=
  match cs with
  | [] => true
  | c :: rest => commentMinOK min c && commentListMinOK min rest
end

/-! ## workflow (src/agentgist/workflow.py)

`write_report_workflow` runs: fetch (network black box — its result
`fetched` is a parameter), `request_filter_query` (the interrupt; after
resume its result is the `query` parameter), `filter_posts`, the analyze
loop, `write_report`, then `report.references = selected_posts`.

The LLM black boxes enter as oracles: `analyzeResp p` is the raw text
`llm.invoke(...)` returns inside `analyze_post` for post `p` (the prompt is
a function of `p` and the query, so an arbitrary function of `p` subsumes
it), and `reportResp analyzed` the text returned inside `write_report`.
The `create_llm` results the workflow passes to the steps are settled
separately (they are `none` for the configured providers); the oracles
model the values the `invoke` calls would have to produce for a run to
proceed. -/

/-- The analyze loop (`workflow.py` lines 47-52) viewed on the selected
posts: each selected post gets `post.analysis = analyze_post(...)`; an
exception escaping `analyze_post` (see `analyzePostParse`) aborts the
loop and fails the run. -/
def analyzeSelected (parseJson : String → Except String RawAnalysis)
    (analyzeResp : Post → String) : List Post → Except String (List Post)
  | [] => .ok []
  | p :: ps =>
    match analyzePostParse parseJson (analyzeResp p) with
    | .error e => .error e
    | .ok a =>
      match analyzeSelected parseJson analyzeResp ps with
      | .error e => .error e
      | .ok rest => .ok ({ p with analysis := some a } :: rest)

/-- `write_report_workflow` (`workflow.py` lines 26-61) after the resume:
filter, analyze loop, report call, then the engine overwrites
`report.references` with the selected (now analyzed) posts. -/
def write_report_workflow (retrieve : String → List Document → List Document)
    (parseJson : String → Except String RawAnalysis)
    (analyzeResp : Post → String)
    (parseReport : String → Except String Report)
    (reportResp : List Post → String)
    (fetched : List Post) (query : String) : Except String Report :=
  match analyzeSelected parseJson analyzeResp (filter_posts retrieve query fetched) with
  | .error e => .error e
  | .ok analyzed =>
    .ok { writeReportParse parseReport (reportResp analyzed) with references := some analyzed }

/-- The per-post effect of the loop body `post.analysis = analyze_post(...)`.
(When the analysis raises, the run fails before any assignment to this
post; the `.error` branch keeping `p` is only reached on runs that never
finish the loop, and the theorems about the loop's heap effect hypothesise
a completed loop.) -/
def applyAnalysis (parseJson : String → Except String RawAnalysis)
    (analyzeResp : Post → String) (p : Post) : Post :=
  match analyzePostParse parseJson (analyzeResp p) with
  | .ok a => { p with analysis := some a }
  | .error _ => p

/-- The state of the full fetched-posts list after the analyze loop: the
loop iterates over `selected_posts`, whose elements are the same heap
objects as the corresponding elements of `posts`, so assigning
`post.analysis` updates the shared object.  A post is in `selected_posts`
exactly when `isSelected` holds of it, so on runs where the loop
completes the heap effect is this map. -/
def heapAfterAnalyzeLoop (retrieve : String → List Document → List Document)
    (parseJson : String → Except String RawAnalysis)
    (analyzeResp : Post → String)
    (fetched : List Post) (query : String) : List Post :=
  fetched.map (fun p =>
    if isSelected retrieve query fetched p then applyAnalysis parseJson analyzeResp p
    else p)

/-! ## Serialization (pydantic `model_dump` / `model_validate` of `Report`)

The persisted/transmitted form of a `Report` is its pydantic JSON dump.
`Json` models the JSON values involved: numbers split into `int` (Python
int) and `rat` (Python float — dyadic rational, exact round-trip, see the
module comment).  `toJson` functions follow `model_dump` field by field
(ISO datetimes as the integer they encode), `fromJson` functions follow
`model_validate`, including the `Literal` check on `sentiment`. -/

inductive Json where
  | null
  | str (s : String)
  | int (n : Int)
  | rat (q : Rat)
  | arr (xs : List Json)
  | obj (fields : List (String × Json))

/-- Dict key lookup on a JSON object's field list. -/
def lookupField : List (String × Json) → String → Option Json
  | [], _ => none
  | (k, v) :: rest, name => if k = name then some v else lookupField rest name

def Json.asStr : Json → Option String
  | .str s => some s
  | _ => none

def Json.asInt : Json → Option Int
  | .int n => some n
  | _ => none

def Json.asRat : Json → Option Rat
  | .rat q => some q
  | _ => none

/-- Parse a JSON array of strings. -/
def strListFromJson : List Json → Option (List String)
  | [] => some []
  | j :: rest => do
    let s ← j.asStr
    let ss ← strListFromJson rest
    some (s :: ss)

def strListToJson (xs : List String) : List Json :=
  xs.map Json.str

/-- `model_dump` of `PostAnalysis`. -/
def analysisToJson (a : PostAnalysis) : Json :=
  .obj [("summary", .str a.summary),
        ("key_points", .arr (strListToJson a.key_points)),
        ("topics", .arr (strListToJson a.topics)),
        ("controversies", .arr (strListToJson a.controversies)),
        ("sentiment", .str a.sentiment)]

/-- `model_validate` of `PostAnalysis`, including the `Literal` check on
`sentiment`. -/
def analysisFromJson : Json → Option PostAnalysis
  | .obj fields => do
    let summ ← (lookupField fields "summary").bind Json.asStr
    let kp ← match lookupField fields "key_points" with
      | some (.arr xs) => strListFromJson xs
      | _ => none
    let tp ← match lookupField fields "topics" with
      | some (.arr xs) => strListFromJson xs
      | _ => none
    let cv ← match lookupField fields "controversies" with
      | some (.arr xs) => strListFromJson xs
      | _ => none
    let sent ← (lookupField fields "sentiment").bind Json.asStr
    if sent ∈ allowedSentiments then
      some { summary := summ, key_points := kp, topics := tp,
             controversies := cv, sentiment := sent }
    else
      none
  | _ => none

mutual
/-- `model_dump` of `Comment` (recursive). -/
def commentToJson : Comment → Json
  | .mk t a s rs =>
    .obj [("text", .str t), ("author", .str a), ("score", .int s),
          ("replies", .arr (commentListToJson rs))]

def commentListToJson : List Comment → List Json
  | [] => []
  | c :: rest => commentToJson c :: commentListToJson rest
end

/-- `lookupField` only returns values stored in the field list, so the
result is structurally smaller than the object. -/
theorem sizeOf_lookupField_lt (fields : List (String × Json)) (name : String)
    (v : Json) (h : lookupField fields name = some v) :
    sizeOf v < 1 + sizeOf fields := by
  induction fields with
  | nil => simp [lookupField] at h
  | cons kv rest ih =>
    obtain ⟨k, w⟩ := kv
    by_cases hk : k = name
    · simp [lookupField, hk] at h
      subst h
      simp
      omega
    · simp [lookupField, hk] at h
      have := ih h
      simp
      omega

mutual
/-- `model_validate` of `Comment` (recursive). -/
def commentFromJson : Json → Option Comment
  | .obj fields =>
    match lookupField fields "text" with
    | some (.str t) =>
      (match lookupField fields "author" with
       | some (.str a) =>
         (match lookupField fields "score" with
          | some (.int s) =>
            (match h : lookupField fields "replies" with
             | some (.arr rs) =>
               (match commentListFromJson rs with
                | some replies => some (Comment.mk t a s replies)
                | none => none)
             | _ => none)
          | _ => none)
       | _ => none)
    | _ => none
  | _ => none
termination_by j => sizeOf j
decreasing_by
  have := sizeOf_lookupField_lt fields "replies" _ h
  simp at this ⊢
  omega

def commentListFromJson : List Json → Option (List Comment)
  | [] => some []
  | j :: rest =>
    match commentFromJson j with
    | some c =>
      (match commentListFromJson rest with
       | some cs => some (c :: cs)
       | none => none)
    | none => none
termination_by js => sizeOf js
decreasing_by
  all_goals
    simp only [List.cons.sizeOf_spec]
    omega
end

/-- `model_dump` of `Post`: every field is emitted, `None` as `null`,
the comment tree recursively, the analysis inline. -/
def postToJson (p : Post) : Json :=
  .obj [("permalink", .str p.permalink),
        ("title", .str p.title),
        ("text", .str p.text),
        ("author", .str p.author),
        ("category", match p.category with | some c => .str c | none => .null),
        ("score", .int p.score),
        ("upvote_ratio", .rat p.upvoteFraction),
        ("n_comments", .int p.n_comments),
        ("url_domain", .str p.url_domain),
        ("created_at", .int p.created_at),
        ("comments", .arr (commentListToJson p.comments)),
        ("analysis", match p.analysis with | some a => analysisToJson a | none => .null)]

/-- `model_validate` of `Post`. -/
def postFromJson : Json → Option Post
  | .obj fields => do
    let permalink ← (lookupField fields "permalink").bind Json.asStr
    let title ← (lookupField fields "title").bind Json.asStr
    let text ← (lookupField fields "text").bind Json.asStr
    let author ← (lookupField fields "author").bind Json.asStr
    let category ← match lookupField fields "category" with
      | some .null => some none
      | some (.str c) => some (some c)
      | _ => none
    let score ← (lookupField fields "score").bind Json.asInt
    let ratio ← (lookupField fields "upvote_ratio").bind Json.asRat
    let ncm ← (lookupField fields "n_comments").bind Json.asInt
    let dom ← (lookupField fields "url_domain").bind Json.asStr
    let created ← (lookupField fields "created_at").bind Json.asInt
    let comments ← match lookupField fields "comments" with
      | some (.arr cs) => commentListFromJson cs
      | _ => none
    let analysis ← match lookupField fields "analysis" with
      | some .null => some none
      | some (.obj afields) => (analysisFromJson (.obj afields)).map some
      | _ => none
    some { permalink := permalink, title := title, text := text, author := author,
           category := category, score := score, upvoteFraction := ratio,
           n_comments := ncm, url_domain := dom, created_at := created,
           comments := comments, analysis := analysis }
  | _ => none

/-- Parse a JSON array of posts. -/
def postListFromJson : List Json → Option (List Post)
  | [] => some []
  | j :: rest => do
    let p ← postFromJson j
    let ps ← postListFromJson rest
    some (p :: ps)

/-- `model_dump` of `Report` — the persisted/transmitted form. -/
def reportToJson (r : Report) : Json :=
  .obj [("title", .str r.title),
        ("takeaways", .arr (strListToJson r.takeaways)),
        ("summary", .str r.summary),
        ("references", match r.references with
          | some ps => .arr (ps.map postToJson)
          | none => .null)]

/-- `model_validate` of `Report`. -/
def reportFromJson : Json → Option Report
  | .obj fields => do
    let title ← (lookupField fields "title").bind Json.asStr
    let takeaways ← match lookupField fields "takeaways" with
      | some (.arr xs) => strListFromJson xs
      | _ => none
    let summary ← (lookupField fields "summary").bind Json.asStr
    let references ← match lookupField fields "references" with
      | some .null => some none
      | some (.arr ps) => (postListFromJson ps).map some
      | _ => none
    some { title := title, takeaways := takeaways, summary := summary,
           references := references }
  | _ => none

/-- A `PostAnalysis` value satisfying the pydantic `Literal` constraint —
the invariant every constructed analysis has. -/
def analysisValid (a : PostAnalysis) : Prop :=
  a.sentiment ∈ allowedSentiments

/-- Every analysis attached inside the post satisfies the sentiment
invariant. -/
def postValid (p : Post) : Prop :=
  ∀ a, p.analysis = some a → analysisValid a

/-- Every post referenced by the report satisfies `postValid`. -/
def reportValid (r : Report) : Prop :=
  ∀ ps, r.references = some ps → ∀ p ∈ ps, postValid p

/-! ## Concrete sample data used by witnesses -/

/-- A concrete sample comment with a reply. -/
def sampleComment : Comment :=
  Comment.mk "great point" "carol" 4 [Comment.mk "thanks" "dave" 2 []]

/-- A concrete sample analysis with an admissible sentiment. -/
def sampleAnalysis : PostAnalysis :=
  { summary := "a summary", key_points := ["k1", "k2"], topics := ["ai"],
    controversies := ["c1"], sentiment := "trust" }

/-- A concrete sample post. -/
def samplePost1 : Post :=
  { permalink := "/r/a/1", title := "t1", text := "body1", author := "u1",
    category := none, score := 5, upvoteFraction := 1/2, n_comments := 1,
    url_domain := "", created_at := 0, comments := [sampleComment], analysis := none }

/-- A second concrete sample post, with a distinct permalink. -/
def samplePost2 : Post :=
  { permalink := "/r/a/2", title := "t2", text := "body2", author := "u2",
    category := some "news", score := 9, upvoteFraction := 3/4, n_comments := 0,
    url_domain := "example.com", created_at := 1, comments := [],
    analysis := some sampleAnalysis }

/-! ## Helper lemmas -/

/-- Any `.ok` result of pydantic `PostAnalysis` construction carries one of
the 8 enumerated sentiment values. -/
theorem validateAnalysisRaw_ok_sentiment (r : RawAnalysis) (pa : PostAnalysis)
    (h : validateAnalysisRaw r = .ok pa) : pa.sentiment ∈ allowedSentiments := by
  unfold validateAnalysisRaw at h
  cases hs : r.summary with
  | none => simp [hs] at h
  | some summ =>
    cases ht : r.sentiment with
    | none => simp [hs, ht] at h
    | some sent =>
      simp only [hs, ht] at h
      by_cases hmem : sent ∈ allowedSentiments
      · simp [hmem] at h
        cases h
        exact hmem
      · simp [hmem] at h

/-- The fallback construction of `analyze_post` always raises: its
`sentiment="neutral"` keyword fails the `Literal` validation. -/
theorem analyzeFallback_always_raises (e response_content : String) :
    validateAnalysisRaw (analyzeFallbackRaw e response_content)
      = .error "unexpected value for sentiment: neutral" := by
  simp [validateAnalysisRaw, analyzeFallbackRaw, allowedSentiments]

/-! ## Claims -/

/-- Claim C1 (code bug).  The spec says a syntactically invalid LLM
response in the analyze step yields the fixed placeholder `PostAnalysis`
and never a run failure; the code's own `except` branch is commented
"Fallback with minimal valid data" — but it constructs
`PostAnalysis(..., sentiment="neutral")`, and `"neutral"` is not among the
8 values of the `sentiment` `Literal`, so the fallback construction itself
raises a `ValidationError` that escapes `analyze_post`: whenever the
parse-and-validate attempt fails, the analyze step raises instead of
returning the placeholder, and the run fails. -/
theorem claim1_analyze_fallback_raises
    (parseJson : String → Except String RawAnalysis) (response_content e : String)
    (h : parseJson (stripCodeFence response_content) = .error e) :
    analyzePostParse parseJson response_content
      = .error "unexpected value for sentiment: neutral" := by
  unfold analyzePostParse
  simp only [h]
  exact analyzeFallback_always_raises e response_content

/-- Witness for C1: on the concrete unparsable response `"this is not
json"` the analyze step raises the sentiment `ValidationError`. -/
theorem claim1_analyze_fallback_raises_witness :
    analyzePostParse (fun _ => .error "Expecting value: line 1 column 1")
      "this is not json" = .error "unexpected value for sentiment: neutral" :=
  claim1_analyze_fallback_raises (fun _ => .error "Expecting value: line 1 column 1")
    "this is not json" "Expecting value: line 1 column 1" rfl

/-- Claim C2 (confirmed).  `request_filter_query` never returns normally
before a resume: executed with no recorded resume value it raises the
interrupt whose payload is exactly the one-key dict holding the fetched
posts, and re-executed with a resume value containing the key
`filter_query` it returns exactly that string. -/
theorem claim2_request_filter_query_interrupts
    (posts : List Post) (feedback : List (String × String)) (q : String)
    (hq : feedback.lookup "filter_query" = some q) :
    request_filter_query posts none = .interrupted { posts := posts }
    ∧ request_filter_query posts (some feedback) = .ok q := by
  constructor
  · rfl
  · simp [request_filter_query, hq]

/-- Witness for C2 at a concrete session: one fetched post, resume value
`{"filter_query": "AI hardware"}`. -/
theorem claim2_request_filter_query_interrupts_witness :
    request_filter_query [] none = .interrupted { posts := [] }
    ∧ request_filter_query [] (some [("filter_query", "AI hardware")])
        = .ok "AI hardware" :=
  claim2_request_filter_query_interrupts [] [("filter_query", "AI hardware")]
    "AI hardware" rfl

/-- Claim C5 (confirmed).  `create_llm` returns a chat model only for the
GROQ provider; for every other provider — including both configured
defaults, `Config.Model.DEFAULT` (qwen2.5 on Ollama) and
`Config.Model.REPORT_WRITER` (deepseek-r1:14b on Ollama) — it falls off
the end of the function and returns `None`, for every query argument. -/
theorem claim5_create_llm_none_for_non_groq
    (mc : ModelConfig) (q : Option String) (h : mc.provider ≠ ModelProvider.groq) :
    create_llm mc q = none
    ∧ (∀ q2 : Option String, create_llm Config.Model.DEFAULT q2 = none)
    ∧ (∀ q2 : Option String, create_llm Config.Model.REPORT_WRITER q2 = none) := by
  refine ⟨?_, ?_, ?_⟩
  · simp [create_llm, h]
  · intro q2
    simp [create_llm, Config.Model.DEFAULT, QWEN]
  · intro q2
    simp [create_llm, Config.Model.REPORT_WRITER, DEEPSEEK_R1]

/-- Witness for C5 at the concrete default config and a concrete query. -/
theorem claim5_create_llm_none_for_non_groq_witness :
    create_llm QWEN (some "summarize AI news") = none
    ∧ (∀ q2 : Option String, create_llm Config.Model.DEFAULT q2 = none)
    ∧ (∀ q2 : Option String, create_llm Config.Model.REPORT_WRITER q2 = none) :=
  claim5_create_llm_none_for_non_groq QWEN (some "summarize AI news") (by decide)

/-- Claim C8 (confirmed).  Every `PostAnalysis` the analyze step actually
returns — through schema validation of the LLM output or through the
fallback branch (which never returns, see C1) — has one of the 8
enumerated sentiment values: pydantic validates the `Literal` on every
construction. -/
theorem claim8_sentiment_always_enumerated
    (parseJson : String → Except String RawAnalysis) (response_content : String)
    (pa : PostAnalysis)
    (h : analyzePostParse parseJson response_content = .ok pa) :
    pa.sentiment ∈ allowedSentiments := by
  unfold analyzePostParse at h
  cases hp : parseJson (stripCodeFence response_content) with
  | error e =>
    simp only [hp] at h
    exact validateAnalysisRaw_ok_sentiment _ _ h
  | ok raw =>
    simp only [hp] at h
    cases hv : validateAnalysisRaw raw with
    | ok pa2 =>
      simp only [hv] at h
      cases h
      exact validateAnalysisRaw_ok_sentiment _ _ hv
    | error e2 =>
      simp only [hv] at h
      exact validateAnalysisRaw_ok_sentiment _ _ h

/-- Witness for C8: a concrete well-formed response with sentiment
`"trust"`. -/
theorem claim8_sentiment_always_enumerated_witness :
    (PostAnalysis.mk "fine" [] [] [] "trust").sentiment ∈ allowedSentiments :=
  claim8_sentiment_always_enumerated
    (fun _ => .ok { summary := some "fine", key_points := none, topics := none,
                    controversies := none, sentiment := some "trust" })
    "resp" (PostAnalysis.mk "fine" [] [] [] "trust") rfl

/-- A successful analyze loop changes only `analysis` fields and attaches
an analysis to every post it returns. -/
theorem analyzeSelected_ok_shape (parseJson : String → Except String RawAnalysis)
    (analyzeResp : Post → String) :
    ∀ (sel refs : List Post), analyzeSelected parseJson analyzeResp sel = .ok refs →
      refs.map Post.stripAnalysis = sel.map Post.stripAnalysis
      ∧ ∀ p ∈ refs, p.analysis.isSome = true := by
  intro sel
  induction sel with
  | nil =>
    intro refs h
    simp [analyzeSelected] at h
    subst h
    simp
  | cons p ps ih =>
    intro refs h
    unfold analyzeSelected at h
    cases ha : analyzePostParse parseJson (analyzeResp p) with
    | error e => simp [ha] at h
    | ok a =>
      simp only [ha] at h
      cases hr : analyzeSelected parseJson analyzeResp ps with
      | error e => simp [hr] at h
      | ok rest =>
        simp only [hr] at h
        cases h
        obtain ⟨h1, h2⟩ := ih rest hr
        constructor
        · simp [Post.stripAnalysis, h1]
        · intro x hx
          rcases List.mem_cons.mp hx with h | h
          · subst h
            simp
          · exact h2 x h

/-- When every selected analysis parses, the loop returns the selected
posts with their analyses attached, i.e. `applyAnalysis` mapped over
them. -/
theorem analyzeSelected_ok_of_all (parseJson : String → Except String RawAnalysis)
    (analyzeResp : Post → String) :
    ∀ (sel : List Post),
      (∀ p ∈ sel, (analyzePostParse parseJson (analyzeResp p)).isOk = true) →
      analyzeSelected parseJson analyzeResp sel
        = .ok (sel.map (applyAnalysis parseJson analyzeResp)) := by
  intro sel
  induction sel with
  | nil => intro _; rfl
  | cons p ps ih =>
    intro hall
    have hp := hall p (List.mem_cons_self p ps)
    unfold analyzeSelected
    cases ha : analyzePostParse parseJson (analyzeResp p) with
    | error e => rw [ha] at hp; simp [Except.isOk, Except.toBool] at hp
    | ok a =>
      rw [ih (fun x hx => hall x (List.mem_cons_of_mem p hx))]
      simp [applyAnalysis, ha]

/-- Claim C7 (confirmed).  When the filter step selects zero posts the run
still completes: the analyze loop is a no-op, `write_report` is total (its
fallback `Report` passes validation), and the final `Report` carries an
empty `references` list. -/
theorem claim7_zero_selected_still_completes
    (retrieve : String → List Document → List Document)
    (parseJson : String → Except String RawAnalysis)
    (analyzeResp : Post → String)
    (parseReport : String → Except String Report)
    (reportResp : List Post → String)
    (fetched : List Post) (query : String)
    (h : filter_posts retrieve query fetched = []) :
    ∃ r, write_report_workflow retrieve parseJson analyzeResp parseReport reportResp
          fetched query = .ok r
      ∧ r.references = some [] := by
  refine ⟨{ writeReportParse parseReport (reportResp []) with references := some [] }, ?_, rfl⟩
  unfold write_report_workflow
  rw [h]
  rfl

/-- Witness for C7: empty subreddit fetch, retriever returning nothing. -/
theorem claim7_zero_selected_still_completes_witness :
    ∃ r, write_report_workflow (fun _ _ => []) (fun _ => .error "bad json")
          (fun _ => "resp") (fun _ => .error "bad json") (fun _ => "resp")
          [] "any query" = .ok r
      ∧ r.references = some [] :=
  claim7_zero_selected_still_completes (fun _ _ => []) (fun _ => .error "bad json")
    (fun _ => "resp") (fun _ => .error "bad json") (fun _ => "resp")
    [] "any query" rfl

/-- Claim C6 (confirmed).  The filter step returns a sublist of the input
posts — a subset in the input's relative order — and, provided the posts
carry distinct permalinks (the spec's "permalink (unique id)") and the
vector-store retriever honours its `k = FILTER_POST_COUNT` cap, at most
`Config.Preprocessing.FILTER_POST_COUNT = 3` posts. -/
theorem claim6_filter_topk_sublist
    (retrieve : String → List Document → List Document)
    (query : String) (posts : List Post)
    (hk : (retrieve query (createDocumentsFromPosts posts)).length
            ≤ Config.Preprocessing.FILTER_POST_COUNT)
    (hnodup : (posts.map Post.permalink).Nodup) :
    (filter_posts retrieve query posts).Sublist posts
    ∧ (filter_posts retrieve query posts).length
        ≤ Config.Preprocessing.FILTER_POST_COUNT := by
  have hsub : (filter_posts retrieve query posts).Sublist posts :=
    List.filter_sublist posts
  refine ⟨hsub, ?_⟩
  have hmapsub : ((filter_posts retrieve query posts).map Post.permalink).Sublist
      (posts.map Post.permalink) := hsub.map Post.permalink
  have hnd : ((filter_posts retrieve query posts).map Post.permalink).Nodup :=
    hnodup.sublist hmapsub
  have hsubset : ((filter_posts retrieve query posts).map Post.permalink)
      ⊆ foundPermalinks retrieve query posts := by
    intro x hx
    obtain ⟨p, hp, hpx⟩ := List.mem_map.mp hx
    have := List.of_mem_filter hp
    simp only [isSelected, decide_eq_true_eq] at this
    rw [← hpx]
    exact this
  have hle : ((filter_posts retrieve query posts).map Post.permalink).length
      ≤ (foundPermalinks retrieve query posts).length :=
    (hnd.subperm hsubset).length_le
  have hfp : (foundPermalinks retrieve query posts).length
      ≤ Config.Preprocessing.FILTER_POST_COUNT := by
    unfold foundPermalinks
    rw [List.length_map]
    exact hk
  calc (filter_posts retrieve query posts).length
      = ((filter_posts retrieve query posts).map Post.permalink).length := by
        rw [List.length_map]
    _ ≤ (foundPermalinks retrieve query posts).length := hle
    _ ≤ Config.Preprocessing.FILTER_POST_COUNT := hfp

/-- Witness for C6: two posts with distinct permalinks, a retriever that
returns one document. -/
theorem claim6_filter_topk_sublist_witness :
    (filter_posts (fun _ docs => docs.take 1) "q" [samplePost1, samplePost2]).Sublist
      [samplePost1, samplePost2]
    ∧ (filter_posts (fun _ docs => docs.take 1) "q" [samplePost1, samplePost2]).length
        ≤ Config.Preprocessing.FILTER_POST_COUNT :=
  claim6_filter_topk_sublist (fun _ docs => docs.take 1) "q" [samplePost1, samplePost2]
    (by simp [createDocumentsFromPosts, Config.Preprocessing.FILTER_POST_COUNT])
    (by simp [samplePost1, samplePost2])

/-- Claim C3 (confirmed).  For every completed run the final `Report`'s
references are exactly the posts selected by the filter step — equal to
the filter output field-for-field except for the attached analysis, in
filter order, a sublist of the originally fetched posts — every reference
carries a non-null analysis, and the references are assigned by the
workflow after the report LLM call returns: they are the same whatever
the report LLM produced. -/
theorem claim3_references_selected_and_analyzed
    (retrieve : String → List Document → List Document)
    (parseJson : String → Except String RawAnalysis)
    (analyzeResp : Post → String)
    (parseReport : String → Except String Report)
    (reportResp : List Post → String)
    (fetched : List Post) (query : String) (r : Report)
    (h : write_report_workflow retrieve parseJson analyzeResp parseReport reportResp
          fetched query = .ok r) :
    ∃ refs,
      r.references = some refs
      ∧ refs.map Post.stripAnalysis
          = (filter_posts retrieve query fetched).map Post.stripAnalysis
      ∧ (refs.map Post.stripAnalysis).Sublist (fetched.map Post.stripAnalysis)
      ∧ (∀ p ∈ refs, p.analysis.isSome = true)
      ∧ (∀ (parseReport2 : String → Except String Report)
           (reportResp2 : List Post → String) (r2 : Report),
          write_report_workflow retrieve parseJson analyzeResp parseReport2 reportResp2
            fetched query = .ok r2 → r2.references = some refs) := by
  unfold write_report_workflow at h
  cases ha : analyzeSelected parseJson analyzeResp (filter_posts retrieve query fetched) with
  | error e => rw [ha] at h; cases h
  | ok analyzed =>
    rw [ha] at h
    cases h
    obtain ⟨hstrip, hsome⟩ := analyzeSelected_ok_shape parseJson analyzeResp _ _ ha
    refine ⟨analyzed, rfl, hstrip, ?_, hsome, ?_⟩
    · rw [hstrip]
      exact (List.filter_sublist fetched).map Post.stripAnalysis
    · intro parseReport2 reportResp2 r2 h2
      unfold write_report_workflow at h2
      rw [ha] at h2
      cases h2
      rfl

/-- Witness for C3: a one-post fetch where the retriever selects the post
and both LLM responses parse. -/
theorem claim3_references_selected_and_analyzed_witness :
    ∃ refs,
      (Report.mk "T" ["a"] "S" (some [{ samplePost1 with analysis := some sampleAnalysis }])).references = some refs
      ∧ refs.map Post.stripAnalysis
          = (filter_posts (fun _ docs => docs) "q" [samplePost1]).map Post.stripAnalysis
      ∧ (refs.map Post.stripAnalysis).Sublist ([samplePost1].map Post.stripAnalysis)
      ∧ (∀ p ∈ refs, p.analysis.isSome = true)
      ∧ (∀ (parseReport2 : String → Except String Report)
           (reportResp2 : List Post → String) (r2 : Report),
          write_report_workflow (fun _ docs => docs)
            (fun _ => .ok { summary := some "a summary", key_points := some ["k1", "k2"],
                            topics := some ["ai"], controversies := some ["c1"],
                            sentiment := some "trust" })
            (fun _ => "resp") parseReport2 reportResp2
            [samplePost1] "q" = .ok r2 → r2.references = some refs) :=
  claim3_references_selected_and_analyzed (fun _ docs => docs)
    (fun _ => .ok { summary := some "a summary", key_points := some ["k1", "k2"],
                    topics := some ["ai"], controversies := some ["c1"],
                    sentiment := some "trust" })
    (fun _ => "resp")
    (fun _ => .ok (Report.mk "T" ["a"] "S" none))
    (fun _ => "resp")
    [samplePost1] "q"
    (Report.mk "T" ["a"] "S" (some [{ samplePost1 with analysis := some sampleAnalysis }]))
    (by rfl)

/-- `applyAnalysis` never changes a field other than `analysis`. -/
theorem stripAnalysis_applyAnalysis (parseJson : String → Except String RawAnalysis)
    (analyzeResp : Post → String) (p : Post) :
    (applyAnalysis parseJson analyzeResp p).stripAnalysis = p.stripAnalysis := by
  unfold applyAnalysis
  cases analyzePostParse parseJson (analyzeResp p) with
  | ok a => rfl
  | error e => rfl

/-- `applyAnalysis` preserves the permalink. -/
theorem permalink_applyAnalysis (parseJson : String → Except String RawAnalysis)
    (analyzeResp : Post → String) (p : Post) :
    (applyAnalysis parseJson analyzeResp p).permalink = p.permalink := by
  unfold applyAnalysis
  cases analyzePostParse parseJson (analyzeResp p) with
  | ok a => rfl
  | error e => rfl

/-- Filtering a mapped list commutes with mapping the filtered list when
the map preserves the predicate. -/
theorem filter_map_of_pred_eq {α : Type} (f : α → α) (q : α → Bool) (l : List α)
    (hq : ∀ a, q (f a) = q a) :
    (l.map f).filter q = (l.filter q).map f := by
  induction l with
  | nil => rfl
  | cons a rest ih =>
    simp only [List.map_cons, List.filter_cons, hq a]
    cases hqa : q a with
    | true => simp [ih]
    | false => simp [ih]

/-- Claim C9 (confirmed).  On runs whose analyze loop completes, the loop
mutates only the `analysis` field of each selected post: the post list
after the loop agrees with the fetched list on every field of every post
except `analysis`, an unselected post is untouched entirely, and the
selected posts — with only their analyses attached — are exactly what the
loop hands on towards the final report. -/
theorem claim9_analyze_loop_frame
    (retrieve : String → List Document → List Document)
    (parseJson : String → Except String RawAnalysis)
    (analyzeResp : Post → String)
    (fetched : List Post) (query : String)
    (hok : ∀ p ∈ fetched, isSelected retrieve query fetched p = true →
       (analyzePostParse parseJson (analyzeResp p)).isOk = true) :
    (heapAfterAnalyzeLoop retrieve parseJson analyzeResp fetched query).map Post.stripAnalysis
        = fetched.map Post.stripAnalysis
    ∧ (heapAfterAnalyzeLoop retrieve parseJson analyzeResp fetched query).length
        = fetched.length
    ∧ (∀ (i : Nat) (hi : i < fetched.length)
         (hi2 : i < (heapAfterAnalyzeLoop retrieve parseJson analyzeResp fetched query).length),
         isSelected retrieve query fetched (fetched.get ⟨i, hi⟩) = false →
         (heapAfterAnalyzeLoop retrieve parseJson analyzeResp fetched query).get ⟨i, hi2⟩
           = fetched.get ⟨i, hi⟩)
    ∧ analyzeSelected parseJson analyzeResp (filter_posts retrieve query fetched)
        = .ok ((heapAfterAnalyzeLoop retrieve parseJson analyzeResp fetched query).filter
                 (isSelected retrieve query fetched)) := by
  refine ⟨?_, ?_, ?_, ?_⟩
  · unfold heapAfterAnalyzeLoop
    rw [List.map_map]
    apply List.map_congr_left
    intro p _
    simp only [Function.comp_apply]
    by_cases hp : isSelected retrieve query fetched p
    · rw [if_pos hp]
      exact stripAnalysis_applyAnalysis parseJson analyzeResp p
    · rw [if_neg hp]
  · unfold heapAfterAnalyzeLoop
    exact List.length_map _ _
  · intro i hi hi2 hunsel
    unfold heapAfterAnalyzeLoop
    rw [List.get_map]
    rw [hunsel]
    simp
  · have hmap : analyzeSelected parseJson analyzeResp (filter_posts retrieve query fetched)
        = .ok ((filter_posts retrieve query fetched).map (applyAnalysis parseJson analyzeResp)) := by
      apply analyzeSelected_ok_of_all
      intro p hp
      have hmem := List.mem_of_mem_filter hp
      have hsel := List.of_mem_filter hp
      exact hok p hmem hsel
    rw [hmap]
    unfold heapAfterAnalyzeLoop filter_posts
    rw [filter_map_of_pred_eq]
    · congr 1
      apply List.map_congr_left
      intro p hp
      rw [if_pos (List.of_mem_filter hp)]
    · intro p
      by_cases hp : isSelected retrieve query fetched p
      · rw [if_pos hp]
        unfold isSelected
        rw [permalink_applyAnalysis]
      · rw [if_neg hp]

/-- Witness for C9: one fetched post, selected, with a parsing analysis
response. -/
theorem claim9_analyze_loop_frame_witness :
    (heapAfterAnalyzeLoop (fun _ docs => docs)
        (fun _ => .ok { summary := some "a summary", key_points := none, topics := none,
                        controversies := none, sentiment := some "trust" })
        (fun _ => "resp") [samplePost1] "q").map Post.stripAnalysis
        = [samplePost1].map Post.stripAnalysis
    ∧ (heapAfterAnalyzeLoop (fun _ docs => docs)
        (fun _ => .ok { summary := some "a summary", key_points := none, topics := none,
                        controversies := none, sentiment := some "trust" })
        (fun _ => "resp") [samplePost1] "q").length = [samplePost1].length
    ∧ (∀ (i : Nat) (hi : i < [samplePost1].length)
         (hi2 : i < (heapAfterAnalyzeLoop (fun _ docs => docs)
           (fun _ => .ok { summary := some "a summary", key_points := none, topics := none,
                           controversies := none, sentiment := some "trust" })
           (fun _ => "resp") [samplePost1] "q").length),
         isSelected (fun _ docs => docs) "q" [samplePost1] ([samplePost1].get ⟨i, hi⟩) = false →
         (heapAfterAnalyzeLoop (fun _ docs => docs)
           (fun _ => .ok { summary := some "a summary", key_points := none, topics := none,
                           controversies := none, sentiment := some "trust" })
           (fun _ => "resp") [samplePost1] "q").get ⟨i, hi2⟩ = [samplePost1].get ⟨i, hi⟩)
    ∧ analyzeSelected
        (fun _ => .ok { summary := some "a summary", key_points := none, topics := none,
                        controversies := none, sentiment := some "trust" })
        (fun _ => "resp") (filter_posts (fun _ docs => docs) "q" [samplePost1])
        = .ok ((heapAfterAnalyzeLoop (fun _ docs => docs)
                 (fun _ => .ok { summary := some "a summary", key_points := none, topics := none,
                                 controversies := none, sentiment := some "trust" })
                 (fun _ => "resp") [samplePost1] "q").filter
                 (isSelected (fun _ docs => docs) "q" [samplePost1])) :=
  claim9_analyze_loop_frame (fun _ docs => docs)
    (fun _ => .ok { summary := some "a summary", key_points := none, topics := none,
                    controversies := none, sentiment := some "trust" })
    (fun _ => "resp") [samplePost1] "q"
    (by intro p hp hsel; rfl)

/-! ## Claim C4: comment extraction -/

/-- Reddit reply data with a parent comment scoring 1 (below the default
threshold 2) whose reply scores 5 (above the threshold). -/
def excludedParentTree : RNode :=
  .obj [RChild.mk "t1" "weak parent" "alice" 1
          (some (.obj [RChild.mk "t1" "strong child" "bob" 5 none]))]

/-- Counterexample to claim C4.  The claim says exclusion is local, not
inherited: the score-5 reply under the score-1 parent should appear in the
extracted tree.  The code skips an excluded comment with `continue` before
ever visiting its `replies`, so the extraction of this data is empty — the
qualifying child is dropped with its excluded ancestor. -/
theorem claim4_counterexample :
    extractComments excludedParentTree (-1) 0 2 = [] := by
  rfl

/-- `commentListMinOK` splits over append. -/
theorem commentListMinOK_append (m : Int) (A B : List Comment) :
    commentListMinOK m (A ++ B) = (commentListMinOK m A && commentListMinOK m B) := by
  induction A with
  | nil => simp [commentListMinOK]
  | cons c rest ih => simp [commentListMinOK, ih, Bool.and_assoc]

/-- Score-threshold invariant of the extraction, for all three mutually
recursive functions at once, by strong induction on the size of the
input data.  The recursive calls reset `min_score` to its default `2`,
which any top-level `min_score ≥ 2` dominates. -/
theorem extract_minOK_aux :
    ∀ n : Nat,
      (∀ (data : RNode) (md : Int) (cd : Nat) (ms : Int), sizeOf data ≤ n → 2 ≤ ms →
        commentListMinOK 2 (extractComments data md cd ms) = true)
      ∧ (∀ (items : List RNode) (md : Int) (cd : Nat), sizeOf items ≤ n →
        commentListMinOK 2 (extractCommentsList items md cd) = true)
      ∧ (∀ (children : List RChild) (md : Int) (cd : Nat) (ms : Int),
          sizeOf children ≤ n → 2 ≤ ms →
        commentListMinOK 2 (extractChildren children md cd ms) = true) := by
  intro n
  induction n using Nat.strong_induction_on with
  | _ n ih =>
    refine ⟨?_, ?_, ?_⟩
    · intro data md cd ms hsz hms
      cases data with
      | arr items =>
        have hlt : sizeOf items < n := by
          have : sizeOf items < sizeOf (RNode.arr items) := by simp <;> omega
          omega
        exact (ih (sizeOf items) hlt).2.1 items md cd (le_refl _)
      | obj children =>
        have hlt : sizeOf children < n := by
          have : sizeOf children < sizeOf (RNode.obj children) := by simp <;> omega
          omega
        exact (ih (sizeOf children) hlt).2.2 children md cd ms (le_refl _) hms
      | objEmpty => rfl
      | nonDict => rfl
    · intro items md cd hsz
      cases items with
      | nil => rfl
      | cons item rest =>
        have hitem : sizeOf item < n := by
          have : sizeOf item < sizeOf (item :: rest) := by simp <;> omega
          omega
        have hrest : sizeOf rest < n := by
          have : sizeOf rest < sizeOf (item :: rest) := by simp <;> omega
          omega
        have h1 := (ih (sizeOf item) hitem).1 item md cd 2 (le_refl _) (by omega)
        have h2 := (ih (sizeOf rest) hrest).2.1 rest md cd (le_refl _)
        unfold extractCommentsList
        rw [commentListMinOK_append, h1, h2]
        rfl
    · intro children md cd ms hsz hms
      cases children with
      | nil => rfl
      | cons child rest =>
        obtain ⟨k, b, a, s, r⟩ := child
        have hrest : sizeOf rest < n := by
          have : sizeOf rest < sizeOf (RChild.mk k b a s r :: rest) := by simp <;> omega
          omega
        have hrestOK := (ih (sizeOf rest) hrest).2.2 rest md cd ms (le_refl _) hms
        unfold extractChildren
        by_cases hk : k = "t1"
        · rw [if_neg (by simp [hk])]
          by_cases hscore : s < ms
          · rw [if_pos hscore]
            exact hrestOK
          · rw [if_neg hscore]
            have hs2 : (2 : Int) ≤ s := by omega
            cases r with
            | none =>
              dsimp only
              simp [commentListMinOK, commentMinOK, hrestOK, hs2]
            | some reps =>
              dsimp only
              have hreps : sizeOf reps < n := by
                have : sizeOf reps < sizeOf (RChild.mk k b a s (some reps) :: rest) := by
                  simp <;> omega
                omega
              by_cases hcond : reps.isDict = true ∧ (md = -1 ∨ (cd : Int) < md)
              · rw [if_pos hcond]
                have hrepsOK := (ih (sizeOf reps) hreps).1 reps md (cd + 1) 2
                  (le_refl _) (by omega)
                simp [commentListMinOK, commentMinOK, hrepsOK, hrestOK, hs2]
              · rw [if_neg hcond]
                simp [commentListMinOK, commentMinOK, hrestOK, hs2]
        · rw [if_pos (by simp [hk])]
          exact hrestOK

/-- Claim C4, amended (corrected).  Comments scoring below the threshold
(default 2) are excluded at every depth — but exclusion is inherited, not
local: an excluded comment is skipped together with its entire reply
subtree, so a reply whose own score qualifies is still dropped when its
ancestor was excluded (the counterexample above).  Part one: every comment
the extraction returns, at every depth, scores at least 2 whenever the
top-level threshold is at least its default 2 (the recursion resets the
threshold to 2 below the top level).  Part two: a child scoring below the
threshold contributes nothing at all — extraction continues on the
remaining children exactly as if the child and its subtree were absent. -/
theorem claim4_amended_threshold_inherited
    (data : RNode) (md : Int) (cd : Nat) (ms : Int) (hms : 2 ≤ ms)
    (k b a : String) (s : Int) (r : Option RNode) (rest : List RChild)
    (md2 : Int) (cd2 : Nat) (ms2 : Int) (hs : s < ms2) :
    commentListMinOK 2 (extractComments data md cd ms) = true
    ∧ extractChildren (RChild.mk k b a s r :: rest) md2 cd2 ms2
        = extractChildren rest md2 cd2 ms2 := by
  constructor
  · exact (extract_minOK_aux (sizeOf data)).1 data md cd ms (le_refl _) hms
  · conv_lhs => unfold extractChildren
    by_cases hk : k = "t1"
    · rw [if_neg (by simp [hk]), if_pos hs]
    · rw [if_pos (by simp [hk])]

/-- Witness for the amended C4 at the concrete counterexample data and a
concrete below-threshold child. -/
theorem claim4_amended_threshold_inherited_witness :
    commentListMinOK 2 (extractComments excludedParentTree (-1) 0 2) = true
    ∧ extractChildren (RChild.mk "t1" "weak parent" "alice" 1
          (some (.obj [RChild.mk "t1" "strong child" "bob" 5 none])) :: []) (-1) 0 2
        = extractChildren [] (-1) 0 2 :=
  claim4_amended_threshold_inherited excludedParentTree (-1) 0 2 (by omega)
    "t1" "weak parent" "alice" 1
    (some (.obj [RChild.mk "t1" "strong child" "bob" 5 none])) [] (-1) 0 2
    (by omega)

/-! ## Claim C10: serialization round-trip -/

/-- A JSON string array parses back to the strings it came from. -/
theorem strList_roundtrip (xs : List String) :
    strListFromJson (strListToJson xs) = some xs := by
  induction xs with
  | nil => rfl
  | cons x rest ih => simp [strListFromJson, strListToJson, Json.asStr, ih] at ih ⊢

/-- A valid `PostAnalysis` round-trips through its dump. -/
theorem analysis_roundtrip (a : PostAnalysis) (ha : analysisValid a) :
    analysisFromJson (analysisToJson a) = some a := by
  unfold analysisToJson analysisFromJson
  simp [lookupField, Json.asStr, strList_roundtrip, Option.bind]
  exact ha

/-- `commentListFromJson` inverts `commentListToJson` given the inversion
on every member. -/
theorem commentList_roundtrip_of (cs : List Comment)
    (ihm : ∀ c ∈ cs, commentFromJson (commentToJson c) = some c) :
    commentListFromJson (commentListToJson cs) = some cs := by
  induction cs with
  | nil => simp [commentListToJson, commentListFromJson]
  | cons c rest ih =>
    unfold commentListToJson commentListFromJson
    rw [ihm c (List.mem_cons_self c rest),
      ih (fun x hx => ihm x (List.mem_cons_of_mem c hx))]

/-- Round-trip of a comment tree, by strong induction on its size. -/
theorem comment_roundtrip_aux :
    ∀ (n : Nat) (c : Comment), sizeOf c ≤ n →
      commentFromJson (commentToJson c) = some c := by
  intro n
  induction n using Nat.strong_induction_on with
  | _ n ih =>
    intro c hc
    obtain ⟨t, a, s, rs⟩ := c
    have hlist : commentListFromJson (commentListToJson rs) = some rs := by
      apply commentList_roundtrip_of
      intro r hr
      have h1 : sizeOf r < sizeOf rs := List.sizeOf_lt_of_mem hr
      have h2 : sizeOf rs < sizeOf (Comment.mk t a s rs) := by simp <;> omega
      exact ih (sizeOf r) (by omega) r (le_refl _)
    unfold commentToJson commentFromJson
    simp [lookupField, hlist]

/-- Round-trip of a comment tree. -/
theorem comment_roundtrip (c : Comment) :
    commentFromJson (commentToJson c) = some c :=
  comment_roundtrip_aux (sizeOf c) c (le_refl _)

/-- A valid `Post` round-trips through its dump. -/
theorem post_roundtrip (p : Post) (hp : postValid p) :
    postFromJson (postToJson p) = some p := by
  have hcomments : commentListFromJson (commentListToJson p.comments) = some p.comments :=
    commentList_roundtrip_of p.comments (fun c _ => comment_roundtrip c)
  obtain ⟨pl, ti, te, au, cat, sc, ra, nc, dom, cr, cms, an⟩ := p
  unfold postToJson postFromJson
  cases cat with
  | none =>
    cases an with
    | none => simp [lookupField, Json.asStr, Json.asInt, Json.asRat, Option.bind, hcomments]
    | some a =>
      have ha : analysisValid a := hp a rfl
      simp [lookupField, Json.asStr, Json.asInt, Json.asRat, Option.bind, hcomments,
        analysisToJson, analysis_roundtrip a ha]
      rw [← analysisToJson]
      simp [analysis_roundtrip a ha]
  | some c =>
    cases an with
    | none => simp [lookupField, Json.asStr, Json.asInt, Json.asRat, Option.bind, hcomments]
    | some a =>
      have ha : analysisValid a := hp a rfl
      simp [lookupField, Json.asStr, Json.asInt, Json.asRat, Option.bind, hcomments,
        analysisToJson, analysis_roundtrip a ha]
      rw [← analysisToJson]
      simp [analysis_roundtrip a ha]

/-- A list of valid posts round-trips element-wise. -/
theorem postList_roundtrip (ps : List Post) (hps : ∀ p ∈ ps, postValid p) :
    postListFromJson (ps.map postToJson) = some ps := by
  induction ps with
  | nil => rfl
  | cons p rest ih =>
    simp only [List.map_cons, postListFromJson, Option.bind,
      post_roundtrip p (hps p (List.mem_cons_self p rest))]
    rw [ih (fun x hx => hps x (List.mem_cons_of_mem p hx))]
    rfl

/-- Claim C10 (confirmed).  Serializing a `Report` — including its nested
references, their comment trees and attached analyses — to the
persisted/transmitted JSON form and deserializing it back yields the
original report field-for-field.  The hypothesis `reportValid` states what
pydantic construction guarantees of every report in the system: each
attached analysis carries one of the 8 admissible sentiments (see C8). -/
theorem claim10_report_roundtrip (r : Report) (h : reportValid r) :
    reportFromJson (reportToJson r) = some r := by
  obtain ⟨ti, ta, su, refs⟩ := r
  unfold reportToJson reportFromJson
  cases refs with
  | none => simp [lookupField, Json.asStr, Option.bind, strList_roundtrip]
  | some ps =>
    have hps : ∀ p ∈ ps, postValid p := h ps rfl
    simp [lookupField, Json.asStr, Option.bind, strList_roundtrip,
      postList_roundtrip ps hps]

/-- Witness for C10: a concrete report with two references, comment trees
and an attached analysis. -/
theorem claim10_report_roundtrip_witness :
    reportFromJson (reportToJson
        (Report.mk "Weekly AI digest" ["t1", "t2", "t3"] "A summary."
          (some [samplePost1, samplePost2])))
      = some (Report.mk "Weekly AI digest" ["t1", "t2", "t3"] "A summary."
          (some [samplePost1, samplePost2])) :=
  claim10_report_roundtrip
    (Report.mk "Weekly AI digest" ["t1", "t2", "t3"] "A summary."
      (some [samplePost1, samplePost2]))
    (by
      intro ps hps p hp
      simp only [Report.mk.injEq, Option.some.injEq] at hps
      subst hps
      intro a hpa
      rcases List.mem_cons.mp hp with h1 | h1
      · subst h1
        simp [samplePost1] at hpa
      · rcases List.mem_cons.mp h1 with h2 | h2
        · subst h2
          simp [samplePost2] at hpa
          subst hpa
          simp [analysisValid, sampleAnalysis, allowedSentiments]
        · simp at h2)

end Agentgist
